import Mathlib

/-!
Verification of the midl Bitcoin escrow application.

Bytes are modelled as `Nat` (each in `0..255` where produced by the code),
buffers as `List Nat`.  Pure fragments of the TypeScript source are embedded
as Lean functions; network calls become explicit `Except Unit` arguments
(`.error ()` models a thrown/failed request).  `bitcoinjs-lib`'s
`script.compile` / `script.decompile`, which the repository calls to
assemble its scripts, are embedded faithfully from that library's behaviour
(minimal-opcode conversion plus pushdata length prefixes).
-/

set_option autoImplicit false

namespace Midl

/-- Decidable equality for `Except` results, so that concrete runs of the
embedded fallible functions can be checked by `decide`. -/
instance {ε α : Type} [DecidableEq ε] [DecidableEq α] : DecidableEq (Except ε α) := fun x y =>
  match x, y with
  | .ok a, .ok b =>
    if h : a = b then .isTrue (by rw [h])
    else .isFalse (by intro hc; cases hc; exact h rfl)
  | .error a, .error b =>
    if h : a = b then .isTrue (by rw [h])
    else .isFalse (by intro hc; cases hc; exact h rfl)
  | .ok _, .error _ => .isFalse (by intro hc; cases hc)
  | .error _, .ok _ => .isFalse (by intro hc; cases hc)

/-! ### Script chunks and bitcoinjs-lib compile/decompile -/

/-- Chunk of a Bitcoin script as handled by `btc.script.compile`: either a
bare opcode (a `number` in the TS call) or a data push (a `Buffer`). -/
inductive ScriptElem where
  | op (code : Nat)
  | data (bytes : List Nat)
deriving DecidableEq

def OP_0 : Nat := 0x00
def OP_PUSHDATA1 : Nat := 0x4c
def OP_1NEGATE : Nat := 0x4f
def OP_2 : Nat := 0x52
def OP_DROP : Nat := 0x75
def OP_CHECKSIG : Nat := 0xac
def OP_CHECKMULTISIG : Nat := 0xae
def OP_CHECKLOCKTIMEVERIFY : Nat := 0xb1

/-- bitcoinjs-lib `asMinimalOP`: a buffer that has a dedicated single
opcode (empty → OP_0, `[1..16]` → OP_1..OP_16, `[0x81]` → OP_1NEGATE) is
emitted as that opcode instead of a data push. -/
def asMinimalOP (b : List Nat) : Option Nat :=
  match b with
  | [] => some OP_0
  | [x] =>
    if 1 ≤ x ∧ x ≤ 16 then some (0x50 + x)
    else if x = 0x81 then some OP_1NEGATE
    else none
  | _ => none

/-- bitcoinjs-lib pushdata encoding: direct length byte up to 75 bytes,
then OP_PUSHDATA1 / OP_PUSHDATA2 / OP_PUSHDATA4 with a little-endian
length. -/
def pushEncode (b : List Nat) : List Nat :=
  if b.length ≤ 75 then b.length :: b
  else if b.length ≤ 0xff then 0x4c :: b.length :: b
  else if b.length ≤ 0xffff then 0x4d :: b.length % 256 :: b.length / 256 :: b
  else
    0x4e :: b.length % 256 :: b.length / 256 % 256 :: b.length / 65536 % 256 ::
      b.length / 16777216 % 256 :: b

/-- One chunk of `btc.script.compile`: opcodes are written as-is, buffers
are minimal-op converted or pushdata encoded. -/
def compileElem : ScriptElem → List Nat
  | .op c => [c]
  | .data b =>
    match asMinimalOP b with
    | some c => [c]
    | none => pushEncode b

/-- bitcoinjs-lib `btc.script.compile` on a chunk list. -/
def compile (es : List ScriptElem) : List Nat :=
  (es.map compileElem).flatten

/-- Fuelled worker for `decompile`; each step consumes at least one byte,
so fuel equal to the byte count suffices. -/
def decompileFuel : Nat → List Nat → Option (List ScriptElem)
  | _, [] => some []
  | 0, _ :: _ => none
  | fuel + 1, b :: rest =>
    if 1 ≤ b ∧ b ≤ 75 then
      if rest.length < b then none
      else
        match decompileFuel fuel (rest.drop b) with
        | some es => some (.data (rest.take b) :: es)
        | none => none
    else if b = 0x4c then
      match rest with
      | [] => none
      | n :: r2 =>
        if r2.length < n then none
        else
          match decompileFuel fuel (r2.drop n) with
          | some es => some (.data (r2.take n) :: es)
          | none => none
    else if b = 0x4d then
      match rest with
      | n1 :: n2 :: r2 =>
        if r2.length < n1 + 256 * n2 then none
        else
          match decompileFuel fuel (r2.drop (n1 + 256 * n2)) with
          | some es => some (.data (r2.take (n1 + 256 * n2)) :: es)
          | none => none
      | _ => none
    else if b = 0x4e then
      match rest with
      | n1 :: n2 :: n3 :: n4 :: r2 =>
        if r2.length < n1 + 256 * (n2 + 256 * (n3 + 256 * n4)) then none
        else
          match decompileFuel fuel (r2.drop (n1 + 256 * (n2 + 256 * (n3 + 256 * n4)))) with
          | some es => some (.data (r2.take (n1 + 256 * (n2 + 256 * (n3 + 256 * n4)))) :: es)
          | none => none
      | _ => none
    else
      match decompileFuel fuel rest with
      | some es => some (.op b :: es)
      | none => none

/-- bitcoinjs-lib `btc.script.decompile`: parse compiled bytes back into
chunks (`none` on a truncated push). -/
def decompile (bs : List Nat) : Option (List ScriptElem) :=
  decompileFuel bs.length bs

/-! ### src/lib/bitcoin scripts module: buildTimelockScript and friends -/

/-- Error raised by `numberToBuffer` (`throw new Error('Cannot encode
negative numbers')`). -/
inductive ScriptError where
  | negativeNumber
deriving DecidableEq

/-- Little-endian byte loop of `numberToBuffer`
(`while (n > 0) { bytes.push(n & 0xff); n = n >>> 8; }`).  The JS `&` and
`>>>` operators coerce to 32 bits, hence the `% 2 ^ 32`. -/
def leBytes (n : Nat) : List Nat :=
  if h : n = 0 then []
  else n % 2 ^ 32 % 256 :: leBytes (n % 2 ^ 32 / 256)
termination_by n
decreasing_by
  rcases Nat.lt_or_ge (n % 2 ^ 32) n with h2 | h2
  · exact Nat.lt_of_le_of_lt (Nat.div_le_self _ _) h2
  · have heq : n % 2 ^ 32 = n := Nat.le_antisymm (Nat.mod_le _ _) h2
    rw [heq]
    exact Nat.div_lt_self (Nat.pos_of_ne_zero h) (by norm_num)

/-- `numberToBuffer` from the scripts module: builds the buffer handed to
`btc.script.compile` for the unlock height.  Note the buffer is intended
by its comments to already carry push framing (`[num]` as a "direct push",
`[0x4c, num]` as "OP_PUSHDATA1"), and a trailing `0x00` sign byte is
appended in the multi-byte case when the high bit of the most significant
byte is set. -/
def numberToBuffer (num : Int) : Except ScriptError (List Nat) :=
  if num = 0 then .ok [OP_0]
  else if num < 0 then .error .negativeNumber
  else if num ≤ 75 then .ok [num.toNat]
  else if num ≤ 255 then .ok [OP_PUSHDATA1, num.toNat]
  else
    let bs := leBytes num.toNat
    .ok (if 128 ≤ bs.getLast?.getD 0 then bs ++ [0] else bs)

/-- `buildTimelockScript(unlockTime, publicKeyHex)`: compiles
`[numberToBuffer(unlockTime), OP_CHECKLOCKTIMEVERIFY, OP_DROP, pubkey,
OP_CHECKSIG]`.  The pubkey argument is the hex-decoded key bytes. -/
def buildTimelockScript (unlockTime : Int) (publicKey : List Nat) :
    Except ScriptError (List Nat) :=
  (numberToBuffer unlockTime).map fun unlockTimeBuffer =>
    compile
      [.data unlockTimeBuffer, .op OP_CHECKLOCKTIMEVERIFY, .op OP_DROP,
        .data publicKey, .op OP_CHECKSIG]

/-- `buildMultisigScript(publicKey1Hex, publicKey2Hex)`: compiles
`[OP_2, pk1, pk2, OP_2, OP_CHECKMULTISIG]`. -/
def buildMultisigScript (pubKey1 pubKey2 : List Nat) : List Nat :=
  compile
    [.op OP_2, .data pubKey1, .data pubKey2, .op OP_2, .op OP_CHECKMULTISIG]

/-! ### src/lib/bitcoin/escrow/detector.ts: status checks -/

/-- Mempool UTXO shape (`types/index.ts`): `status.confirmed` plus an
optional `status.block_height`. -/
structure UTXO where
  txid : String
  vout : Nat
  value : Int
  confirmed : Bool
  block_height : Option Nat
deriving DecidableEq

/-- Result record of `checkEscrowStatus`. -/
structure EscrowStatusCheck where
  isFunded : Bool
  confirmations : Int
  utxo : Option UTXO
  blockHeight : Nat
  isSpendable : Bool
  estimatedFeeRate : Nat
deriving DecidableEq

/-- `checkEscrowStatus(escrowAddress, expectedAmount)`: the two network
reads (`getUTXOs`, `getBlockHeight`) are passed in as `Except Unit`
results; `.error ()` models a thrown request.  A failed UTXO fetch hits
the outer catch; a failed tip fetch hits the inner catch, which assumes
one confirmation and leaves `blockHeight` at its initial `0`. -/
def checkEscrowStatus (utxosResult : Except Unit (List UTXO))
    (expectedAmount : Int) (tipResult : Except Unit Nat) : EscrowStatusCheck :=
  match utxosResult with
  | .error _ =>
    { isFunded := false, confirmations := 0, utxo := none, blockHeight := 0,
      isSpendable := false, estimatedFeeRate := 1 }
  | .ok utxos =>
    match utxos.find? (fun u => u.value = expectedAmount) with
    | none =>
      { isFunded := false, confirmations := 0, utxo := none, blockHeight := 0,
        isSpendable := false, estimatedFeeRate := 1 }
    | some matchingUtxo =>
      let cb : Int × Nat :=
        if matchingUtxo.confirmed then
          match tipResult with
          | .ok blockHeight =>
            ((blockHeight : Int) - (matchingUtxo.block_height.getD 0 : Int) + 1,
              blockHeight)
          | .error _ => (1, 0)
        else (0, 0)
      { isFunded := true, confirmations := cb.1, utxo := some matchingUtxo,
        blockHeight := cb.2,
        isSpendable := matchingUtxo.confirmed && decide (1 ≤ cb.1),
        estimatedFeeRate := 2 }

/-- `tx.status` fields used by `getTransactionStatus`. -/
structure TxStatusInfo where
  confirmed : Bool
  block_height : Nat
deriving DecidableEq

/-- Return record of `getTransactionStatus`. -/
structure TxStatusResult where
  confirmed : Bool
  blockHeight : Option Nat
  confirmations : Int
deriving DecidableEq

/-- `getTransactionStatus(txid)` from `signer.ts`: both reads modelled as
`Except Unit` inputs; any failure lands in the single catch, which reports
unconfirmed with zero confirmations.  On success the confirmation count is
clamped: `Math.max(0, currentHeight - tx.status.block_height + 1)`. -/
def getTransactionStatus (txResult : Except Unit TxStatusInfo)
    (tipResult : Except Unit Nat) : TxStatusResult :=
  match txResult with
  | .error _ => { confirmed := false, blockHeight := none, confirmations := 0 }
  | .ok tx =>
    if tx.confirmed then
      match tipResult with
      | .error _ => { confirmed := false, blockHeight := none, confirmations := 0 }
      | .ok currentHeight =>
        { confirmed := true, blockHeight := some tx.block_height,
          confirmations := max 0 ((currentHeight : Int) - (tx.block_height : Int) + 1) }
    else { confirmed := false, blockHeight := none, confirmations := 0 }

/-! ### Escrow PSBT builder (detector.ts second part) -/

inductive UnlockType where
  | timelock
  | dualApproval
deriving DecidableEq

/-- UTXO fields consumed by `buildUnlockPSBT`. -/
structure UnlockUTXO where
  txid : String
  vout : Nat
  value : Int
deriving DecidableEq

/-- `UnlockPSBTParams`, with hex fields already decoded to bytes. -/
structure UnlockPSBTParams where
  utxo : UnlockUTXO
  rawTx : List Nat
  redeemScript : List Nat
  unlockOutputAddress : String
  feeRate : Nat
  unlockType : UnlockType
  unlockTime : Option Nat
deriving DecidableEq

/-- One PSBT input as added by `psbt.addInput`. -/
structure PsbtInput where
  hash : String
  index : Nat
  sequence : Nat
  nonWitnessUtxo : List Nat
  redeemScript : List Nat
deriving DecidableEq

/-- One PSBT output as added by `psbt.addOutput`. -/
structure PsbtOutput where
  address : String
  value : Int
deriving DecidableEq

/-- The PSBT state `buildUnlockPSBT` constructs: a fresh
`new btc.Psbt()` has locktime `0` until `setLocktime` is called. -/
structure Psbt where
  locktime : Nat
  inputs : List PsbtInput
  outputs : List PsbtOutput
deriving DecidableEq

/-- `estimateUnlockTxSize(unlockType)`: `10 + 200 + 34` for timelock,
`10 + 260 + 34` for dual-approval. -/
def estimateUnlockTxSize : UnlockType → Nat
  | .timelock => 10 + 200 + 34
  | .dualApproval => 10 + 260 + 34

/-- `buildUnlockPSBT(params)`.  `isTimelock` mirrors
`unlockType === 'timelock' && !!unlockTime` (JS truthiness: absent or `0`
is falsy, captured by `getD 0 ≠ 0`).  The fee is
`Math.ceil(estimatedSize * feeRate)`, which for a natural fee rate is the
plain product, and the output value is `Math.max(546, utxo.value - fee)`. -/
def buildUnlockPSBT (p : UnlockPSBTParams) : Psbt :=
  let isTimelock := p.unlockType = .timelock ∧ p.unlockTime.getD 0 ≠ 0
  let fee : Nat := estimateUnlockTxSize p.unlockType * p.feeRate
  let outputAmount : Int := max 546 (p.utxo.value - (fee : Int))
  { locktime := if isTimelock then p.unlockTime.getD 0 else 0,
    inputs :=
      [{ hash := p.utxo.txid, index := p.utxo.vout,
         sequence := if isTimelock then 0xfffffffe else 0xffffffff,
         nonWitnessUtxo := p.rawTx, redeemScript := p.redeemScript }],
    outputs := [{ address := p.unlockOutputAddress, value := outputAmount }] }

/-- One entry of a PSBT input's collected signatures: signer pubkey and
signature bytes. -/
structure SigPair where
  pubkey : List Nat
  signature : List Nat
deriving DecidableEq

/-- Finalization failure (`throw new Error('No signature provided...')` /
`'Need 2 signatures...'`), the spec's `MissingSignature`. -/
inductive FinalizeError where
  | missingSignature
deriving DecidableEq

/-- `Buffer.compare` on byte buffers: lexicographic, shorter prefix
first. -/
def bufCompare : List Nat → List Nat → Ordering
  | [], [] => .eq
  | [], _ :: _ => .lt
  | _ :: _, [] => .gt
  | a :: as, b :: bs =>
    if a < b then .lt else if b < a then .gt else bufCompare as bs

/-- Stable insertion used to model the JS stable `Array.sort` with
comparator `(a, b) => a.pubkey.compare(b.pubkey)`. -/
def insertSig (a : SigPair) : List SigPair → List SigPair
  | [] => [a]
  | b :: bs =>
    if bufCompare a.pubkey b.pubkey = .gt then b :: insertSig a bs
    else a :: b :: bs

/-- Stable ascending sort of the collected signatures by signer pubkey. -/
def sortSigs : List SigPair → List SigPair
  | [] => []
  | a :: as => insertSig a (sortSigs as)

/-- `finalizeTimelockPSBT` finalizer callback: with no collected signature
it throws; otherwise the final script-sig is
`btc.script.compile([signature, redeemScript])` using the first collected
signature — the pubkey is deliberately not pushed. -/
def finalizeTimelockPSBT (sigs : List SigPair) (redeemScript : List Nat) :
    Except FinalizeError (List Nat) :=
  match sigs with
  | [] => .error .missingSignature
  | s :: _ => .ok (compile [.data s.signature, .data redeemScript])

/-- `finalizeMultisigPSBT` finalizer callback: with fewer than two
collected signatures it throws; otherwise the signatures are sorted by
pubkey and the final script-sig is
`btc.script.compile([OP_0, sig1, sig2, redeemScript])`. -/
def finalizeMultisigPSBT (sigs : List SigPair) (redeemScript : List Nat) :
    Except FinalizeError (List Nat) :=
  if sigs.length < 2 then .error .missingSignature
  else
    match sortSigs sigs with
    | s1 :: s2 :: _ =>
      .ok (compile
        [.op OP_0, .data s1.signature, .data s2.signature, .data redeemScript])
    | _ => .error .missingSignature

/-! ### src/app/escrow/[id]/page.tsx: polling lifecycle -/

/-- `EscrowStatus` from `types/index.ts`. -/
inductive EscrowStatus where
  | pending
  | active
  | readyToUnlock
  | released
deriving DecidableEq

/-- The `EscrowConfig` fields read or written by `refreshEscrowStatus`
and `handleUnlock`.  The store's `updateEscrow` merges partial updates,
so a poll that writes only `status` leaves every other field intact. -/
structure EscrowRecord where
  status : EscrowStatus
  fundingTxid : Option String
  redeemTxid : Option String
  unlockType : UnlockType
  unlockTime : Option Nat
  buyerSigned : Bool
  sellerSigned : Bool
deriving DecidableEq

/-- Facts one poll tick observes from the chain API: the current tip
height and whether the funding transaction is confirmed. -/
structure DetectorFacts where
  tipHeight : Nat
  fundingConfirmed : Bool
deriving DecidableEq

/-- Position of a status along the lifecycle
pending → active → ready-to-unlock → released. -/
def statusRank : EscrowStatus → Nat
  | .pending => 0
  | .active => 1
  | .readyToUnlock => 2
  | .released => 3

/-- `refreshEscrowStatus` as a transition on the stored record: `none`
facts model a thrown API call (the whole `try` block is a no-op).  Both
guards test the status read at the top of the tick, so at most one
transition fires per poll: pending → active when the funding transaction
is confirmed, or active → ready-to-unlock when the unlock condition holds
(timelock: a truthy `unlockTime` that the tip height has reached;
dual-approval: both parties have signed). -/
def refreshEscrowStatus (r : EscrowRecord) (f : Option DetectorFacts) :
    EscrowRecord :=
  match f with
  | none => r
  | some facts =>
    let r1 :=
      if r.fundingTxid.isSome ∧ r.status = .pending ∧ facts.fundingConfirmed then
        { r with status := .active }
      else r
    let readyToUnlock : Bool :=
      match r.unlockType with
      | .timelock =>
        r.unlockTime.getD 0 != 0 && r.unlockTime.getD 0 ≤ facts.tipHeight
      | .dualApproval => r.buyerSigned && r.sellerSigned
    if r.status = .active ∧ readyToUnlock then { r1 with status := .readyToUnlock }
    else r1

/-- State update at the end of a successful `handleUnlock` broadcast:
`updateEscrow(escrowId, { status: 'released', unlockedAt: now,
redeemTxid: txid })` (merge — other fields untouched). -/
def handleUnlockSuccess (r : EscrowRecord) (txid : String) : EscrowRecord :=
  { r with status := .released, redeemTxid := some txid }

/-! ### Escrow service layer: createEscrow -/

/-- Errors thrown by `createEscrow` (the `Unknown unlock type` branch is
unreachable for the typed two-valued `EscrowUnlockType`). -/
inductive CreateError where
  | unlockTimeRequired
  | recipientPublicKeyRequired
  | cannotEncodeNegative
deriving DecidableEq

/-- `CreateEscrowParams` fields consumed by `createEscrow`, keys
hex-decoded to bytes. -/
structure CreateEscrowParams where
  lockerPublicKey : List Nat
  unlockType : UnlockType
  unlockTime : Option Int
  recipientPublicKey : Option (List Nat)
deriving DecidableEq

/-- `createEscrow(params)` up to the redeem script it selects: the P2SH
address, id and mempool link of the result are derived from this script
by external libraries and are not needed by the claims.  The guard
`if (!unlockTime) throw new Error('unlockTime is required')` runs first,
for every unlock type; `getD 0 = 0` captures JS falsiness of an absent or
zero `unlockTime`. -/
def createEscrow (p : CreateEscrowParams) : Except CreateError (List Nat) :=
  if p.unlockTime.getD 0 = 0 then .error .unlockTimeRequired
  else
    match p.unlockType with
    | .timelock =>
      match buildTimelockScript (p.unlockTime.getD 0) p.lockerPublicKey with
      | .ok script => .ok script
      | .error _ => .error .cannotEncodeNegative
    | .dualApproval =>
      match p.recipientPublicKey with
      | none => .error .recipientPublicKeyRequired
      | some recipientKey => .ok (buildMultisigScript p.lockerPublicKey recipientKey)

/-! ### Helper lemmas -/

theorem asMinimalOP_eq_none {b : List Nat} (hb : 2 ≤ b.length) :
    asMinimalOP b = none := by
  match b with
  | [] => simp at hb
  | [_] => simp at hb
  | _ :: _ :: _ => rfl

theorem compileElem_op (c : Nat) : compileElem (.op c) = [c] := rfl

theorem compileElem_data {b : List Nat} (hb : 2 ≤ b.length) :
    compileElem (.data b) = pushEncode b := by
  simp [compileElem, asMinimalOP_eq_none hb]

theorem bufCompare_swap : ∀ x y : List Nat, bufCompare y x = (bufCompare x y).swap := by
  intro x
  induction x with
  | nil => intro y; cases y <;> rfl
  | cons a as ih =>
    intro y
    cases y with
    | nil => rfl
    | cons b bs =>
      simp only [bufCompare]
      rcases Nat.lt_trichotomy a b with hab | hab | hab
      · have h1 : ¬ b < a := by omega
        simp [h1, hab, Ordering.swap]
      · have h1 : ¬ b < a := by omega
        have h2 : ¬ a < b := by omega
        simp [h1, h2]
        exact ih bs
      · have h2 : ¬ a < b := by omega
        simp [hab, h2, Ordering.swap]

/-! ### Claim theorems -/

/-- Claim C1: the spec says `buildTimelockScript` emits a minimally-encoded
push of the height (OP_0 for height 0; a direct push for 1–75; the
OP_PUSHDATA1 prefix byte followed by the value byte for 76–255) before
CHECKLOCKTIMEVERIFY.  The code instead hands `numberToBuffer`'s already
push-framed bytes to `btc.script.compile`, which re-wraps them as plain
data: at height 100 the script begins `0x02 0x4c 0x64` — a two-byte push
of the bytes `[0x4c, 0x64]` (script number 25676), not a push of 100 — and
at height 0 it begins `0x01 0x00`, a one-byte push of `0x00`, not OP_0.
This contradicts the builder's own documented script layout. -/
theorem c1_buildTimelockScript_double_push :
    buildTimelockScript 100 (List.replicate 33 2) =
      .ok ([0x02, 0x4c, 0x64, OP_CHECKLOCKTIMEVERIFY, OP_DROP, 0x21] ++
        List.replicate 33 2 ++ [OP_CHECKSIG])
    ∧ decompile ([0x02, 0x4c, 0x64, 0xb1, 0x75, 0x21] ++ List.replicate 33 2 ++ [0xac]) =
      some [.data [0x4c, 0x64], .op 0xb1, .op 0x75, .data (List.replicate 33 2), .op 0xac]
    ∧ buildTimelockScript 0 (List.replicate 33 2) =
      .ok ([0x01, 0x00, OP_CHECKLOCKTIMEVERIFY, OP_DROP, 0x21] ++
        List.replicate 33 2 ++ [OP_CHECKSIG]) := by
  refine ⟨by decide, by decide, by decide⟩

/-- Claim C6 (counterexample): the claim says compilation fails whenever
the supplied public key is not exactly 33 or 65 bytes, but
`buildTimelockScript` never inspects the key length: a 4-byte key at
height 5 compiles successfully. -/
theorem c6_accepts_short_pubkey :
    buildTimelockScript 5 [0xde, 0xad, 0xbe, 0xef] =
      .ok [0x55, OP_CHECKLOCKTIMEVERIFY, OP_DROP, 0x04, 0xde, 0xad, 0xbe, 0xef,
        OP_CHECKSIG] := by
  decide

/-- Claim C6 (amended): `buildTimelockScript` fails (the
cannot-encode-negative error from `numberToBuffer`, the spec's
`InvalidScriptParam`) exactly when the unlock height is negative; the
public key length is never validated — every non-negative height and
every key, of any length, produce a script. -/
theorem c6_buildTimelockScript_validation :
    (∀ (h : Int) (pk : List Nat), h < 0 →
        buildTimelockScript h pk = .error .negativeNumber)
    ∧ (∀ (h : Int) (pk : List Nat), 0 ≤ h →
        ∃ s, buildTimelockScript h pk = .ok s) := by
  constructor
  · intro h pk hneg
    simp only [buildTimelockScript, numberToBuffer]
    rw [if_neg (by omega : ¬ h = 0), if_pos hneg]
    rfl
  · intro h pk hpos
    simp only [buildTimelockScript, numberToBuffer]
    split_ifs <;> first
      | exact ⟨_, rfl⟩
      | omega

/-- Claim C6 witness: the amended theorem applied at height −3 (fails)
and at height 7 with a 3-byte key (succeeds). -/
theorem c6_buildTimelockScript_validation_witness :
    buildTimelockScript (-3) [1, 2] = .error .negativeNumber
    ∧ ∃ s, buildTimelockScript 7 [1, 2, 3] = .ok s :=
  ⟨c6_buildTimelockScript_validation.1 (-3) [1, 2] (by decide),
    c6_buildTimelockScript_validation.2 7 [1, 2, 3] (by decide)⟩

/-- Claim C2: with two collected signatures, `finalizeMultisigPSBT`
produces exactly `OP_0, push(sig of the smaller pubkey), push(sig of the
larger pubkey), push(redeem script)`, in both collection orders; with
fewer than two signatures it fails with the missing-signature error and
produces no script-sig. -/
theorem c2_finalizeMultisigPSBT_sorted :
    ∀ (a b : SigPair) (redeemScript : List Nat),
      bufCompare a.pubkey b.pubkey = .lt →
      2 ≤ a.signature.length → 2 ≤ b.signature.length → 2 ≤ redeemScript.length →
      (finalizeMultisigPSBT [a, b] redeemScript =
          .ok (OP_0 :: (pushEncode a.signature ++ pushEncode b.signature ++
            pushEncode redeemScript)))
      ∧ (finalizeMultisigPSBT [b, a] redeemScript =
          .ok (OP_0 :: (pushEncode a.signature ++ pushEncode b.signature ++
            pushEncode redeemScript)))
      ∧ (∀ sigs : List SigPair, sigs.length < 2 →
          finalizeMultisigPSBT sigs redeemScript = .error .missingSignature) := by
  intro a b redeemScript hlt ha hb hr
  have hne : ¬ bufCompare a.pubkey b.pubkey = .gt := by simp [hlt]
  have hgt : bufCompare b.pubkey a.pubkey = .gt := by
    rw [bufCompare_swap, hlt]; rfl
  refine ⟨?_, ?_, ?_⟩
  · have hs : sortSigs [a, b] = [a, b] := by
      simp only [sortSigs, insertSig]
      rw [if_neg hne]
    simp only [finalizeMultisigPSBT, hs]
    rw [if_neg (by simp)]
    simp [compile, compileElem_op, compileElem_data ha, compileElem_data hb,
      compileElem_data hr]
  · have hs : sortSigs [b, a] = [a, b] := by
      simp only [sortSigs, insertSig]
      rw [if_pos hgt]
    simp only [finalizeMultisigPSBT, hs]
    rw [if_neg (by simp)]
    simp [compile, compileElem_op, compileElem_data ha, compileElem_data hb,
      compileElem_data hr]
  · intro sigs hlen
    simp only [finalizeMultisigPSBT]
    rw [if_pos hlen]

/-- Claim C2 witness: the theorem applied to two concrete signature pairs
collected in either order. -/
theorem c2_finalizeMultisigPSBT_sorted_witness :
    (finalizeMultisigPSBT [⟨[1], [10, 11]⟩, ⟨[2], [20, 21]⟩] [9, 9] =
        .ok (OP_0 :: (pushEncode [10, 11] ++ pushEncode [20, 21] ++ pushEncode [9, 9])))
    ∧ (finalizeMultisigPSBT [⟨[2], [20, 21]⟩, ⟨[1], [10, 11]⟩] [9, 9] =
        .ok (OP_0 :: (pushEncode [10, 11] ++ pushEncode [20, 21] ++ pushEncode [9, 9])))
    ∧ (∀ sigs : List SigPair, sigs.length < 2 →
        finalizeMultisigPSBT sigs [9, 9] = .error .missingSignature) :=
  c2_finalizeMultisigPSBT_sorted ⟨[1], [10, 11]⟩ ⟨[2], [20, 21]⟩ [9, 9]
    (by decide) (by decide) (by decide) (by decide)

/-- Claim C4 (counterexample): the claim says an unlock build whose
output value would fall below 546 sats fails with `InsufficientFunds` and
produces no transaction.  With `utxo.value = 100` and fee rate 1 the fee
is 244, and `100 − 244 < 546`, yet `buildUnlockPSBT` produces a complete
PSBT whose single output is clamped up to 546.  (Params: txid "aa",
vout 0, value 100, empty raw tx and script, fee rate 1, timelock at
height 500000; input fields are hash, index, sequence, nonWitnessUtxo,
redeemScript.) -/
theorem c4_dust_produces_clamped_psbt :
    buildUnlockPSBT ⟨⟨"aa", 0, 100⟩, [], [], "tb1qdest", 1, .timelock, some 500000⟩ =
      ⟨500000, [⟨"aa", 0, 0xfffffffe, [], []⟩], [⟨"tb1qdest", 546⟩]⟩ := by
  decide

/-- Claim C4 (amended): whenever `utxo.value − fee < 546`,
`buildUnlockPSBT` does not fail — it clamps the single output's value up
to the 546-sat dust limit and still produces the PSBT. -/
theorem c4_buildUnlockPSBT_dust_clamp :
    ∀ p : UnlockPSBTParams,
      p.utxo.value - ((estimateUnlockTxSize p.unlockType * p.feeRate : Nat) : Int) < 546 →
      (buildUnlockPSBT p).outputs = [⟨p.unlockOutputAddress, 546⟩] := by
  intro p hdust
  simp only [buildUnlockPSBT]
  rw [max_eq_left (le_of_lt hdust)]

/-- Claim C4 witness: the amended theorem applied to a concrete
under-funded unlock request. -/
theorem c4_buildUnlockPSBT_dust_clamp_witness :
    (100 : Int) - ((estimateUnlockTxSize .timelock * 1 : Nat) : Int) < 546
    ∧ (buildUnlockPSBT ⟨⟨"bb", 1, 100⟩, [7], [8], "addr", 1, .timelock, some 7⟩).outputs =
      [⟨"addr", 546⟩] :=
  ⟨by decide,
    c4_buildUnlockPSBT_dust_clamp ⟨⟨"bb", 1, 100⟩, [7], [8], "addr", 1, .timelock, some 7⟩
      (by decide)⟩

/-- Claim C5: for a timelock unlock with a (truthy, i.e. non-zero) unlock
height `t`, `buildUnlockPSBT` sets the transaction locktime to `t` and the
single input's sequence to `0xfffffffe`; for dual-approval the sequence is
`0xffffffff` and the locktime stays at its unset default `0`.  In both
cases exactly one input — carrying the raw funding-transaction bytes and
the redeem script — and exactly one output are added (input fields: hash,
index, sequence, nonWitnessUtxo, redeemScript). -/
theorem c5_buildUnlockPSBT_locktime_sequence :
    (∀ (p : UnlockPSBTParams) (t : Nat), p.unlockType = .timelock →
        p.unlockTime = some t → t ≠ 0 →
        buildUnlockPSBT p =
          ⟨t, [⟨p.utxo.txid, p.utxo.vout, 0xfffffffe, p.rawTx, p.redeemScript⟩],
            [⟨p.unlockOutputAddress, max 546 (p.utxo.value - ((244 * p.feeRate : Nat) : Int))⟩]⟩)
    ∧ (∀ p : UnlockPSBTParams, p.unlockType = .dualApproval →
        buildUnlockPSBT p =
          ⟨0, [⟨p.utxo.txid, p.utxo.vout, 0xffffffff, p.rawTx, p.redeemScript⟩],
            [⟨p.unlockOutputAddress, max 546 (p.utxo.value - ((304 * p.feeRate : Nat) : Int))⟩]⟩) := by
  constructor
  · intro p t htype htime ht
    simp [buildUnlockPSBT, estimateUnlockTxSize, htype, htime, ht]
  · intro p htype
    simp [buildUnlockPSBT, estimateUnlockTxSize, htype]

/-- Claim C5 witness: the theorem applied to one concrete timelock
request and one concrete dual-approval request. -/
theorem c5_buildUnlockPSBT_locktime_sequence_witness :
    (buildUnlockPSBT ⟨⟨"cc", 2, 10000⟩, [1], [2], "a1", 2, .timelock, some 800⟩ =
      ⟨800, [⟨"cc", 2, 0xfffffffe, [1], [2]⟩],
        [⟨"a1", max 546 ((10000 : Int) - ((244 * 2 : Nat) : Int))⟩]⟩)
    ∧ (buildUnlockPSBT ⟨⟨"dd", 3, 10000⟩, [4], [5], "a2", 2, .dualApproval, none⟩ =
      ⟨0, [⟨"dd", 3, 0xffffffff, [4], [5]⟩],
        [⟨"a2", max 546 ((10000 : Int) - ((304 * 2 : Nat) : Int))⟩]⟩) :=
  ⟨c5_buildUnlockPSBT_locktime_sequence.1 _ 800 rfl rfl (by decide),
    c5_buildUnlockPSBT_locktime_sequence.2 _ rfl⟩

/-- Claim C9: when a matching confirmed UTXO exists but the tip-height
query fails, `checkEscrowStatus` reports exactly one confirmation, block
height 0, and the escrow as spendable (funded, fee rate 2). -/
theorem c9_checkEscrowStatus_tip_failure :
    ∀ (utxos : List UTXO) (expectedAmount : Int) (u : UTXO),
      utxos.find? (fun x => x.value = expectedAmount) = some u →
      u.confirmed = true →
      checkEscrowStatus (.ok utxos) expectedAmount (.error ()) =
        ⟨true, 1, some u, 0, true, 2⟩ := by
  intro utxos expectedAmount u hfind hconf
  simp [checkEscrowStatus, hfind, hconf]

/-- Claim C9 witness: the theorem applied to a single confirmed UTXO
(txid "t", value 5, height 10) with a failed tip query. -/
theorem c9_checkEscrowStatus_tip_failure_witness :
    checkEscrowStatus (.ok [⟨"t", 0, 5, true, some 10⟩]) 5 (.error ()) =
      ⟨true, 1, some ⟨"t", 0, 5, true, some 10⟩, 0, true, 2⟩ :=
  c9_checkEscrowStatus_tip_failure _ 5 _ (by decide) (by decide)

/-- Claim C8 (counterexample): the claim says confirmations are never
negative, but `checkEscrowStatus` omits the `max(0, ...)` clamp: a UTXO
confirmed at height 10 with a (stale) tip of 5 yields −4 confirmations. -/
theorem c8_negative_confirmations :
    (checkEscrowStatus (.ok [⟨"t", 0, 50, true, some 10⟩]) 50 (.ok 5)).confirmations = -4
    ∧ (checkEscrowStatus (.ok [⟨"t", 0, 50, true, some 10⟩]) 50 (.ok 5)).confirmations < 0 := by
  refine ⟨by decide, by decide⟩

/-- Claim C8 (amended): `getTransactionStatus` computes
`max(0, tip − block_height + 1)` for a confirmed transaction and 0
otherwise, but `checkEscrowStatus` computes the unclamped
`tip − block_height + 1`, which is negative whenever the fetched tip is
more than one block below the UTXO's recorded height. -/
theorem c8_confirmations_formula :
    (∀ (bh tip : Nat),
        (getTransactionStatus (.ok ⟨true, bh⟩) (.ok tip)).confirmations =
          max 0 ((tip : Int) - (bh : Int) + 1))
    ∧ (∀ (bh : Nat) (tipResult : Except Unit Nat),
        (getTransactionStatus (.ok ⟨false, bh⟩) tipResult).confirmations = 0)
    ∧ (∀ (utxos : List UTXO) (expectedAmount : Int) (u : UTXO) (tip : Nat),
        utxos.find? (fun x => x.value = expectedAmount) = some u →
        u.confirmed = true →
        (checkEscrowStatus (.ok utxos) expectedAmount (.ok tip)).confirmations =
          (tip : Int) - ((u.block_height.getD 0 : Nat) : Int) + 1) := by
  refine ⟨?_, ?_, ?_⟩
  · intro bh tip
    simp [getTransactionStatus]
  · intro bh tipResult
    simp [getTransactionStatus]
  · intro utxos expectedAmount u tip hfind hconf
    simp [checkEscrowStatus, hfind, hconf]

/-- Claim C8 witness: the amended theorem applied at concrete heights,
including a tip below the UTXO height on the unclamped path. -/
theorem c8_confirmations_formula_witness :
    (getTransactionStatus (.ok ⟨true, 10⟩) (.ok 5)).confirmations =
      max 0 ((5 : Int) - (10 : Int) + 1)
    ∧ (getTransactionStatus (.ok ⟨false, 10⟩) (.error ())).confirmations = 0
    ∧ (checkEscrowStatus (.ok [⟨"w", 1, 77, true, some 10⟩]) 77 (.ok 5)).confirmations =
      (5 : Int) - ((Option.getD (some 10) 0 : Nat) : Int) + 1 :=
  ⟨c8_confirmations_formula.1 10 5,
    c8_confirmations_formula.2.1 10 (.error ()),
    c8_confirmations_formula.2.2 [⟨"w", 1, 77, true, some 10⟩] 77
      ⟨"w", 1, 77, true, some 10⟩ 5 (by decide) (by decide)⟩

/-- Claim C10: `createEscrow` demands a truthy `unlockTime` before
branching on the unlock type, so a dual-approval request carrying both
public keys but no (or a zero) unlock time throws `unlockTime is
required` and creates nothing — even though the unlock time has no effect
on the dual-approval script, as witnessed by any two non-zero unlock
times producing identical results.  (Params: lockerPublicKey, unlockType,
unlockTime, recipientPublicKey.) -/
theorem c10_createEscrow_requires_unlockTime :
    (∀ lockerKey recipientKey : List Nat,
        createEscrow ⟨lockerKey, .dualApproval, none, some recipientKey⟩ =
          .error .unlockTimeRequired)
    ∧ (∀ lockerKey recipientKey : List Nat,
        createEscrow ⟨lockerKey, .dualApproval, some 0, some recipientKey⟩ =
          .error .unlockTimeRequired)
    ∧ (∀ (lockerKey recipientKey : List Nat) (t1 t2 : Int), t1 ≠ 0 → t2 ≠ 0 →
        createEscrow ⟨lockerKey, .dualApproval, some t1, some recipientKey⟩ =
        createEscrow ⟨lockerKey, .dualApproval, some t2, some recipientKey⟩) := by
  refine ⟨?_, ?_, ?_⟩
  · intro lockerKey recipientKey
    simp [createEscrow]
  · intro lockerKey recipientKey
    simp [createEscrow]
  · intro lockerKey recipientKey t1 t2 h1 h2
    simp [createEscrow, h1, h2]

/-- Claim C10 witness: the theorem applied to concrete keys, with the
unlock-time-independence conjunct at times 5 and 9. -/
theorem c10_createEscrow_requires_unlockTime_witness :
    createEscrow ⟨[1], .dualApproval, some 0, some [2]⟩ = .error .unlockTimeRequired
    ∧ createEscrow ⟨[1], .dualApproval, some 5, some [2]⟩ =
      createEscrow ⟨[1], .dualApproval, some 9, some [2]⟩ :=
  ⟨c10_createEscrow_requires_unlockTime.2.1 [1] [2],
    c10_createEscrow_requires_unlockTime.2.2 [1] [2] 5 9 (by decide) (by decide)⟩

/-! ### Poll lifecycle lemmas -/

theorem refresh_record_form (r : EscrowRecord) (f : Option DetectorFacts) :
    refreshEscrowStatus r f = { r with status := (refreshEscrowStatus r f).status } := by
  cases f with
  | none => rfl
  | some facts =>
    by_cases h1 : r.fundingTxid.isSome ∧ r.status = .pending ∧ facts.fundingConfirmed <;>
      by_cases h2 : r.status = .active ∧
        (match r.unlockType with
          | .timelock => r.unlockTime.getD 0 != 0 && r.unlockTime.getD 0 ≤ facts.tipHeight
          | .dualApproval => r.buyerSigned && r.sellerSigned) = true <;>
      simp [refreshEscrowStatus, h1, h2]

theorem refresh_status_cases (r : EscrowRecord) (f : Option DetectorFacts) :
    (refreshEscrowStatus r f).status = r.status
    ∨ (r.status = .pending ∧ (refreshEscrowStatus r f).status = .active)
    ∨ (r.status = .active ∧ (refreshEscrowStatus r f).status = .readyToUnlock) := by
  cases f with
  | none => exact Or.inl rfl
  | some facts =>
    by_cases h1 : r.fundingTxid.isSome ∧ r.status = .pending ∧ facts.fundingConfirmed <;>
      by_cases h2 : r.status = .active ∧
        (match r.unlockType with
          | .timelock => r.unlockTime.getD 0 != 0 && r.unlockTime.getD 0 ≤ facts.tipHeight
          | .dualApproval => r.buyerSigned && r.sellerSigned) = true
    · exact absurd h2.1 (by simp [h1.2.1])
    · exact Or.inr (Or.inl ⟨h1.2.1, by simp [refreshEscrowStatus, h1, h2]⟩)
    · exact Or.inr (Or.inr ⟨h2.1, by simp [refreshEscrowStatus, h1, h2]⟩)
    · exact Or.inl (by simp [refreshEscrowStatus, h1, h2])

theorem refresh_eq_of_status_eq {r : EscrowRecord} {f : Option DetectorFacts}
    (h : (refreshEscrowStatus r f).status = r.status) : refreshEscrowStatus r f = r := by
  rw [refresh_record_form r f, h]

theorem refresh_rank_le (r : EscrowRecord) (f : Option DetectorFacts) :
    statusRank r.status ≤ statusRank (refreshEscrowStatus r f).status := by
  rcases refresh_status_cases r f with h | ⟨hp, ha⟩ | ⟨ha, hr⟩
  · rw [h]
  · rw [hp, ha]; decide
  · rw [ha, hr]; decide

theorem refresh_of_late_status (r : EscrowRecord) (f : Option DetectorFacts)
    (h : r.status = .readyToUnlock ∨ r.status = .released) :
    refreshEscrowStatus r f = r := by
  rcases refresh_status_cases r f with hc | ⟨hp, _⟩ | ⟨ha, _⟩
  · exact refresh_eq_of_status_eq hc
  · rcases h with h | h <;> rw [h] at hp <;> cases hp
  · rcases h with h | h <;> rw [h] at ha <;> cases ha

theorem refresh_stabilizes (r : EscrowRecord) (f : Option DetectorFacts) :
    refreshEscrowStatus (refreshEscrowStatus (refreshEscrowStatus r f) f) f =
      refreshEscrowStatus (refreshEscrowStatus r f) f := by
  rcases refresh_status_cases (refreshEscrowStatus r f) f with h | ⟨hp, _⟩ | ⟨_, hr⟩
  · rw [refresh_eq_of_status_eq h, refresh_eq_of_status_eq h]
  · -- a record whose status is still pending after a poll was not changed by it
    have hone : refreshEscrowStatus r f = r := by
      rcases refresh_status_cases r f with g | ⟨_, ga⟩ | ⟨_, gr⟩
      · exact refresh_eq_of_status_eq g
      · rw [ga] at hp; cases hp
      · rw [gr] at hp; cases hp
    simp only [hone]
  · exact refresh_of_late_status _ f (Or.inl hr)

/-- Claim C7 (counterexample): the claim says repeated evaluation with
unchanged facts leaves the record unchanged, but a poll advances at most
one stage per tick: a pending escrow whose funding is confirmed and whose
timelock (height 100) has already expired at tip 150 moves to active on
the first poll and on to ready-to-unlock on the second poll with the very
same facts.  (Record fields: status, fundingTxid, redeemTxid, unlockType,
unlockTime, buyerSigned, sellerSigned.) -/
theorem c7_poll_advances_twice :
    refreshEscrowStatus
        (refreshEscrowStatus ⟨.pending, some "f", none, .timelock, some 100, false, false⟩
          (some ⟨150, true⟩))
        (some ⟨150, true⟩) ≠
      refreshEscrowStatus ⟨.pending, some "f", none, .timelock, some 100, false, false⟩
        (some ⟨150, true⟩) := by
  decide

/-- Claim C7 (amended): over every sequence of poll evaluations with
arbitrary facts the status only ever advances forward along
pending → active → ready-to-unlock → released (released itself is set by
the unlock handler) and fundingTxid / redeemTxid are never modified by a
poll; no poll transition fires out of released; repeated evaluation with
unchanged facts stabilises after at most two polls (each poll advances at
most one stage); and the unlock handler's released transition sets
redeemTxid without clearing fundingTxid. -/
theorem c7_poll_monotone :
    (∀ (r : EscrowRecord) (fs : List (Option DetectorFacts)),
        statusRank r.status ≤ statusRank ((fs.foldl refreshEscrowStatus r).status)
        ∧ (fs.foldl refreshEscrowStatus r).fundingTxid = r.fundingTxid
        ∧ (fs.foldl refreshEscrowStatus r).redeemTxid = r.redeemTxid)
    ∧ (∀ (r : EscrowRecord) (f : Option DetectorFacts),
        r.status = .released → refreshEscrowStatus r f = r)
    ∧ (∀ (r : EscrowRecord) (f : Option DetectorFacts),
        refreshEscrowStatus (refreshEscrowStatus (refreshEscrowStatus r f) f) f =
          refreshEscrowStatus (refreshEscrowStatus r f) f)
    ∧ (∀ (r : EscrowRecord) (txid : String),
        (handleUnlockSuccess r txid).status = .released
        ∧ (handleUnlockSuccess r txid).fundingTxid = r.fundingTxid
        ∧ (handleUnlockSuccess r txid).redeemTxid = some txid) := by
  refine ⟨?_, ?_, ?_, ?_⟩
  · intro r fs
    induction fs generalizing r with
    | nil => exact ⟨le_refl _, rfl, rfl⟩
    | cons f fs ih =>
      have hstep := refresh_record_form r f
      refine ⟨?_, ?_, ?_⟩
      · exact le_trans (refresh_rank_le r f) (ih (refreshEscrowStatus r f)).1
      · rw [List.foldl_cons, (ih (refreshEscrowStatus r f)).2.1, hstep]
      · rw [List.foldl_cons, (ih (refreshEscrowStatus r f)).2.2, hstep]
  · intro r f h
    exact refresh_of_late_status r f (Or.inr h)
  · exact refresh_stabilizes
  · intro r txid
    exact ⟨rfl, rfl, rfl⟩

/-- Claim C7 witness: the amended theorem applied to a concrete record
polled with a two-element fact sequence, to a released record, and to a
concrete unlock-handler run. -/
theorem c7_poll_monotone_witness :
    (statusRank (EscrowStatus.pending) ≤
        statusRank (([some ⟨150, true⟩, none].foldl refreshEscrowStatus
          ⟨.pending, some "f", none, .timelock, some 100, false, false⟩).status)
      ∧ ([some ⟨150, true⟩, none].foldl refreshEscrowStatus
          ⟨.pending, some "f", none, .timelock, some 100, false, false⟩).fundingTxid = some "f"
      ∧ ([some ⟨150, true⟩, none].foldl refreshEscrowStatus
          ⟨.pending, some "f", none, .timelock, some 100, false, false⟩).redeemTxid = none)
    ∧ refreshEscrowStatus ⟨.released, some "f", some "r", .timelock, some 100, false, false⟩
        (some ⟨150, true⟩) =
      ⟨.released, some "f", some "r", .timelock, some 100, false, false⟩ :=
  ⟨c7_poll_monotone.1 ⟨.pending, some "f", none, .timelock, some 100, false, false⟩
      [some ⟨150, true⟩, none],
    c7_poll_monotone.2.1 ⟨.released, some "f", some "r", .timelock, some 100, false, false⟩
      (some ⟨150, true⟩) (by decide)⟩

/-! ### Decompile round-trip lemmas -/

theorem decompileFuel_fuel_irrel : ∀ (f1 f2 : Nat) (bs : List Nat),
    bs.length ≤ f1 → bs.length ≤ f2 → decompileFuel f1 bs = decompileFuel f2 bs := by
  intro f1
  induction f1 with
  | zero =>
    intro f2 bs h1 _
    have hnil : bs = [] := List.eq_nil_of_length_eq_zero (Nat.le_zero.mp h1)
    subst hnil
    cases f2 <;> rfl
  | succ k ih =>
    intro f2 bs h1 h2
    cases bs with
    | nil => cases f2 <;> rfl
    | cons b rest =>
      cases f2 with
      | zero => simp at h2
      | succ j =>
        have hk : rest.length ≤ k := by simpa using h1
        have hj : rest.length ≤ j := by simpa using h2
        simp only [decompileFuel]
        by_cases hb : 1 ≤ b ∧ b ≤ 75
        · rw [if_pos hb, if_pos hb]
          by_cases hlen : rest.length < b
          · rw [if_pos hlen, if_pos hlen]
          · have hdk : (rest.drop b).length ≤ k := by rw [List.length_drop]; omega
            have hdj : (rest.drop b).length ≤ j := by rw [List.length_drop]; omega
            rw [if_neg hlen, if_neg hlen, ih j (rest.drop b) hdk hdj]
        · rw [if_neg hb, if_neg hb]
          by_cases h4c : b = 0x4c
          · rw [if_pos h4c, if_pos h4c]
            cases rest with
            | nil => rfl
            | cons n r2 =>
              dsimp only
              have hk2 : r2.length ≤ k := by simp at hk; omega
              have hj2 : r2.length ≤ j := by simp at hj; omega
              by_cases hlen : r2.length < n
              · rw [if_pos hlen, if_pos hlen]
              · have hdk : (r2.drop n).length ≤ k := by rw [List.length_drop]; omega
                have hdj : (r2.drop n).length ≤ j := by rw [List.length_drop]; omega
                rw [if_neg hlen, if_neg hlen, ih j (r2.drop n) hdk hdj]
          · rw [if_neg h4c, if_neg h4c]
            by_cases h4d : b = 0x4d
            · rw [if_pos h4d, if_pos h4d]
              cases rest with
              | nil => rfl
              | cons n1 rest1 =>
                cases rest1 with
                | nil => rfl
                | cons n2 r2 =>
                  dsimp only
                  have hk2 : r2.length ≤ k := by simp at hk; omega
                  have hj2 : r2.length ≤ j := by simp at hj; omega
                  by_cases hlen : r2.length < n1 + 256 * n2
                  · rw [if_pos hlen, if_pos hlen]
                  · have hdk : (r2.drop (n1 + 256 * n2)).length ≤ k := by
                      rw [List.length_drop]; omega
                    have hdj : (r2.drop (n1 + 256 * n2)).length ≤ j := by
                      rw [List.length_drop]; omega
                    rw [if_neg hlen, if_neg hlen, ih j (r2.drop (n1 + 256 * n2)) hdk hdj]
            · rw [if_neg h4d, if_neg h4d]
              by_cases h4e : b = 0x4e
              · rw [if_pos h4e, if_pos h4e]
                cases rest with
                | nil => rfl
                | cons n1 rest1 =>
                  cases rest1 with
                  | nil => rfl
                  | cons n2 rest2 =>
                    cases rest2 with
                    | nil => rfl
                    | cons n3 rest3 =>
                      cases rest3 with
                      | nil => rfl
                      | cons n4 r2 =>
                        dsimp only
                        have hk2 : r2.length ≤ k := by simp at hk; omega
                        have hj2 : r2.length ≤ j := by simp at hj; omega
                        by_cases hlen : r2.length < n1 + 256 * (n2 + 256 * (n3 + 256 * n4))
                        · rw [if_pos hlen, if_pos hlen]
                        · have hdk :
                              (r2.drop (n1 + 256 * (n2 + 256 * (n3 + 256 * n4)))).length ≤ k := by
                            rw [List.length_drop]; omega
                          have hdj :
                              (r2.drop (n1 + 256 * (n2 + 256 * (n3 + 256 * n4)))).length ≤ j := by
                            rw [List.length_drop]; omega
                          rw [if_neg hlen, if_neg hlen,
                            ih j (r2.drop (n1 + 256 * (n2 + 256 * (n3 + 256 * n4)))) hdk hdj]
              · rw [if_neg h4e, if_neg h4e, ih j rest hk hj]

theorem decompileFuel_step_direct (fuel n : Nat) (tail : List Nat)
    (h1 : 1 ≤ n) (h75 : n ≤ 75) :
    decompileFuel (fuel + 1) (n :: tail) =
      if tail.length < n then none
      else
        match decompileFuel fuel (tail.drop n) with
        | some es => some (.data (tail.take n) :: es)
        | none => none := by
  simp only [decompileFuel]
  rw [if_pos (⟨h1, h75⟩ : 1 ≤ n ∧ n ≤ 75)]

theorem decompileFuel_step_pushdata1 (fuel n : Nat) (tail : List Nat) :
    decompileFuel (fuel + 1) (0x4c :: n :: tail) =
      if tail.length < n then none
      else
        match decompileFuel fuel (tail.drop n) with
        | some es => some (.data (tail.take n) :: es)
        | none => none := by
  simp only [decompileFuel]
  rw [if_neg (by decide : ¬ ((1 : Nat) ≤ 76 ∧ (76 : Nat) ≤ 75))]
  simp only [if_true]

theorem decompileFuel_step_pushdata2 (fuel n1 n2 : Nat) (tail : List Nat) :
    decompileFuel (fuel + 1) (0x4d :: n1 :: n2 :: tail) =
      if tail.length < n1 + 256 * n2 then none
      else
        match decompileFuel fuel (tail.drop (n1 + 256 * n2)) with
        | some es => some (.data (tail.take (n1 + 256 * n2)) :: es)
        | none => none := by
  simp only [decompileFuel]
  rw [if_neg (by decide : ¬ ((1 : Nat) ≤ 77 ∧ (77 : Nat) ≤ 75)),
    if_neg (by decide : ¬ (77 : Nat) = 76)]
  simp only [if_true]

theorem decompileFuel_step_pushdata4 (fuel n1 n2 n3 n4 : Nat) (tail : List Nat) :
    decompileFuel (fuel + 1) (0x4e :: n1 :: n2 :: n3 :: n4 :: tail) =
      if tail.length < n1 + 256 * (n2 + 256 * (n3 + 256 * n4)) then none
      else
        match decompileFuel fuel (tail.drop (n1 + 256 * (n2 + 256 * (n3 + 256 * n4)))) with
        | some es => some (.data (tail.take (n1 + 256 * (n2 + 256 * (n3 + 256 * n4)))) :: es)
        | none => none := by
  simp only [decompileFuel]
  rw [if_neg (by decide : ¬ ((1 : Nat) ≤ 78 ∧ (78 : Nat) ≤ 75)),
    if_neg (by decide : ¬ (78 : Nat) = 76), if_neg (by decide : ¬ (78 : Nat) = 77)]
  simp only [if_true]

theorem decompile_pushEncode_append (b rest : List Nat) (hb2 : 2 ≤ b.length)
    (hb32 : b.length < 4294967296) :
    decompile (pushEncode b ++ rest) =
      (decompile rest).map (fun es => ScriptElem.data b :: es) := by
  have hrfl : decompile rest = decompileFuel rest.length rest := rfl
  have hnlt : ¬ (b ++ rest).length < b.length := by rw [List.length_append]; omega
  by_cases h75 : b.length ≤ 75
  · have henc : pushEncode b ++ rest = b.length :: (b ++ rest) := by
      simp [pushEncode, h75]
    rw [henc]
    simp only [decompile, List.length_cons]
    rw [decompileFuel_step_direct _ _ _ (by omega) h75, if_neg hnlt,
      List.take_left, List.drop_left,
      decompileFuel_fuel_irrel ((b ++ rest).length) rest.length rest
        (by rw [List.length_append]; omega) (le_refl _), ← hrfl]
    cases decompile rest <;> rfl
  · by_cases h255 : b.length ≤ 255
    · have henc : pushEncode b ++ rest = 0x4c :: b.length :: (b ++ rest) := by
        simp only [pushEncode]
        rw [if_neg h75, if_pos (by omega : b.length ≤ 0xff)]
        rfl
      rw [henc]
      simp only [decompile, List.length_cons]
      rw [decompileFuel_step_pushdata1, if_neg hnlt,
        List.take_left, List.drop_left,
        decompileFuel_fuel_irrel ((b ++ rest).length + 1) rest.length rest
          (by rw [List.length_append]; omega) (le_refl _), ← hrfl]
      cases decompile rest <;> rfl
    · by_cases h65535 : b.length ≤ 65535
      · have henc : pushEncode b ++ rest =
            0x4d :: b.length % 256 :: b.length / 256 :: (b ++ rest) := by
          simp only [pushEncode]
          rw [if_neg h75, if_neg (by omega : ¬ b.length ≤ 0xff),
            if_pos (by omega : b.length ≤ 0xffff)]
          rfl
        rw [henc]
        simp only [decompile, List.length_cons]
        have hn : b.length % 256 + 256 * (b.length / 256) = b.length :=
          Nat.mod_add_div _ _
        rw [decompileFuel_step_pushdata2, hn, if_neg hnlt,
          List.take_left, List.drop_left,
          decompileFuel_fuel_irrel ((b ++ rest).length + 1 + 1) rest.length rest
            (by rw [List.length_append]; omega) (le_refl _), ← hrfl]
        cases decompile rest <;> rfl
      · have henc : pushEncode b ++ rest =
            0x4e :: b.length % 256 :: b.length / 256 % 256 :: b.length / 65536 % 256 ::
              b.length / 16777216 % 256 :: (b ++ rest) := by
          simp only [pushEncode]
          rw [if_neg h75, if_neg (by omega : ¬ b.length ≤ 0xff),
            if_neg (by omega : ¬ b.length ≤ 0xffff)]
          rfl
        rw [henc]
        simp only [decompile, List.length_cons]
        have hn : b.length % 256 + 256 * (b.length / 256 % 256 +
            256 * (b.length / 65536 % 256 + 256 * (b.length / 16777216 % 256))) =
            b.length := by omega
        rw [decompileFuel_step_pushdata4, hn, if_neg hnlt,
          List.take_left, List.drop_left,
          decompileFuel_fuel_irrel ((b ++ rest).length + 1 + 1 + 1 + 1) rest.length rest
            (by rw [List.length_append]; omega) (le_refl _), ← hrfl]
        cases decompile rest <;> rfl

theorem decompile_push_push (s r : List Nat) (hs2 : 2 ≤ s.length)
    (hs32 : s.length < 4294967296) (hr2 : 2 ≤ r.length) (hr32 : r.length < 4294967296) :
    decompile (pushEncode s ++ pushEncode r) = some [.data s, .data r] := by
  rw [decompile_pushEncode_append s (pushEncode r) hs2 hs32]
  have hnil : pushEncode r ++ ([] : List Nat) = pushEncode r := List.append_nil _
  have hr : decompile (pushEncode r) = some [ScriptElem.data r] := by
    rw [← hnil, decompile_pushEncode_append r [] hr2 hr32]
    rfl
  rw [hr]
  rfl

/-- Claim C3: with at least one collected signature, `finalizeTimelockPSBT`
produces a final script-sig of exactly two pushes — the (first) signature
and the entire redeem script — whose decompiled form is exactly
`[signature, redeem script]`, with no separate pubkey element; with no
signature it fails with the missing-signature error and produces no
script-sig.  (Signature and script are at least 2 bytes and shorter than
2^32, as any DER signature and P2SH redeem script are.) -/
theorem c3_finalizeTimelockPSBT_shape :
    ∀ (s : SigPair) (sigsRest : List SigPair) (redeemScript : List Nat),
      2 ≤ s.signature.length → s.signature.length < 4294967296 →
      2 ≤ redeemScript.length → redeemScript.length < 4294967296 →
      (finalizeTimelockPSBT (s :: sigsRest) redeemScript =
          .ok (pushEncode s.signature ++ pushEncode redeemScript))
      ∧ decompile (pushEncode s.signature ++ pushEncode redeemScript) =
          some [.data s.signature, .data redeemScript]
      ∧ finalizeTimelockPSBT [] redeemScript = .error .missingSignature := by
  intro s sigsRest redeemScript hs2 hs32 hr2 hr32
  refine ⟨?_, ?_, rfl⟩
  · simp [finalizeTimelockPSBT, compile, compileElem_data hs2, compileElem_data hr2]
  · exact decompile_push_push s.signature redeemScript hs2 hs32 hr2 hr32

/-- Claim C3 witness: the theorem applied to a concrete signature pair
and redeem script. -/
theorem c3_finalizeTimelockPSBT_shape_witness :
    (finalizeTimelockPSBT [⟨[3], [10, 11]⟩] [7, 8, 9] =
        .ok (pushEncode [10, 11] ++ pushEncode [7, 8, 9]))
    ∧ decompile (pushEncode [10, 11] ++ pushEncode [7, 8, 9]) =
        some [.data [10, 11], .data [7, 8, 9]]
    ∧ finalizeTimelockPSBT [] [7, 8, 9] = .error .missingSignature :=
  c3_finalizeTimelockPSBT_shape ⟨[3], [10, 11]⟩ [] [7, 8, 9]
    (by decide) (by decide) (by decide) (by decide)

end Midl
